import Mathlib

/-!
Verification development for the obsidian-todo task index synchronization engine.

The definitions below are a shallow embedding of the TypeScript sources:
  * `src/src/TaskParser.ts` — the line parser (`TaskParser.parseLine`, built on the
    class-level `strictPattern` regular expression), and the module-level
    `parseFileContents` (built on the module-level `strictPattern` regular
    expression and a separator-keeping split).
  * `src/main.ts` — the plugin event handlers `handleCacheChanged`,
    `handleFileDeleted` and `handleFileRenamed`.
Parts of the repository that the handlers call but whose sources are not in the
inspected tree (`TaskFileManager`, `src/Task`, the store) are modelled from the
specification; each such definition carries a doc comment starting with
"Modelled from the spec".

JavaScript string/regex semantics are embedded explicitly: strings are lists of
characters, and each regular expression of the source is translated into the
deterministic parsing function that its backtracking search reduces to, with the
derivation recorded next to the definition.
-/

/-! ### JavaScript character classes -/

/-- The JavaScript `\s` character class (WhiteSpace plus LineTerminator):
tab, LF, VT, FF, CR, space, NBSP, and the Unicode space separators,
U+2028, U+2029, U+202F, U+205F, U+3000 and U+FEFF. -/
def isJsWhitespace (c : Char) : Bool :=
  c.toNat = 9 || c.toNat = 10 || c.toNat = 11 || c.toNat = 12 || c.toNat = 13 ||
  c.toNat = 32 || c.toNat = 160 || c.toNat = 0x1680 ||
  (decide (0x2000 ≤ c.toNat) && decide (c.toNat ≤ 0x200a)) ||
  c.toNat = 0x2028 || c.toNat = 0x2029 || c.toNat = 0x202f || c.toNat = 0x205f ||
  c.toNat = 0x3000 || c.toNat = 0xfeff

/-- The JavaScript LineTerminator class (what `.` refuses to match and what a
multiline `^`/`$` anchors at): LF, CR, U+2028, U+2029. -/
def isLineTerminator (c : Char) : Bool :=
  c.toNat = 10 || c.toNat = 13 || c.toNat = 0x2028 || c.toNat = 0x2029

/-- The `[0-9A-Za-z]` character class of the module-level pattern. -/
def isAsciiAlnum (c : Char) : Bool :=
  (decide ('0' ≤ c) && decide (c ≤ '9')) ||
  (decide ('A' ≤ c) && decide (c ≤ 'Z')) ||
  (decide ('a' ≤ c) && decide (c ≤ 'z'))

/-- `String.prototype.trim`: strip JavaScript whitespace from both ends. -/
def jsTrim (s : String) : String :=
  String.mk (((s.toList.dropWhile isJsWhitespace).reverse.dropWhile isJsWhitespace).reverse)

/-! ### The class-level strict pattern (`TaskParser.strictPattern`, TaskParser.ts line 9)

`/(?:-|\*) \[(?<complete>\s|x)?\]\s+(?<taskLine>\S[^\^]*)\^?.*$/`  (no flags)

`String.prototype.match` with a flagless regex performs a leftmost search: the
pattern is attempted at index 0, 1, ... and the first index at which it
matches wins.  At a fixed start index the pattern is deterministic:

  * `(?:-|\*) \[` — a marker, a space, an opening bracket (fixed literals).
  * `(?<complete>\s|x)?\]` — the optional group is tried first.  Since
    `']'` is neither `\s` nor `'x'`, the alternatives are disjoint: if the next
    character is in `\s ∪ {x}` the group takes it and the following character
    must be `']'` (if it is not, the empty alternative would have to match
    `']'` against that same in-class character, which is impossible, so the
    whole attempt fails); otherwise the group is skipped and the next character
    itself must be `']'`.
  * `\s+` followed by `\S` — the greedy run is maximal; giving characters back
    would leave a whitespace character under `\S`, so the run is exactly the
    maximal whitespace run, it must be nonempty, and a non-whitespace character
    must follow.
  * `\S[^\^]*\^?.*$` — let the input after the `\S` character `c` be
    `u ++ v` with `u` the maximal caret-free prefix.  Greedily `taskLine`
    is `c :: u`.  If `v` is empty, `\^?` and `.*` match empty and `$` (end of
    input — no `m` flag) holds.  If `v = '^' :: vt`, then `\^?` consumes the
    caret and `.*$` succeeds exactly when `vt` contains no line terminator;
    when `vt` does contain one, every backtracking alternative fails as well
    (shortening `[^\^]*` only puts caret-free characters in front of `.*`,
    which still cannot cross the terminator), so the attempt at this start
    index fails.
-/

/-- The capture groups of a class-level `strictPattern` match:
`complete` is the one-character capture of `(?<complete>\s|x)?` (`none` when
the optional group did not participate), `taskLine` the capture of
`(?<taskLine>\S[^\^]*)`. -/
structure ClassMatch where
  complete : Option Char
  taskLine : String
deriving DecidableEq, Repr

/-- `\[(?<complete>\s|x)?\]` immediately after the opening bracket was consumed
by the caller: returns the `complete` capture and the rest of the input. -/
def classBracket : List Char → Option (Option Char × List Char)
  | [] => none
  | c :: rest =>
    if c = ']' then some (none, rest)
    else if isJsWhitespace c || c = 'x' then
      match rest with
      | ']' :: rest2 => some (some c, rest2)
      | _ => none
    else none

/-- `(?<taskLine>\S[^\^]*)\^?.*$` once positioned at the `\S` character `c`
with remaining input `rest`: with `u` the maximal caret-free prefix of `rest`,
`rest.drop u.length` is either empty (success) or `'^' :: vt`, and then the
match succeeds exactly when `vt` is line-terminator-free (see the derivation
in the section header); either way the capture is `c :: u`. -/
def classTail (c : Char) (rest : List Char) : Option String :=
  match rest.drop ((rest.takeWhile (fun ch => ch != '^')).length) with
  | [] => some (String.mk (c :: rest.takeWhile (fun ch => ch != '^')))
  | _ :: vt =>
    if vt.all (fun ch => !(isLineTerminator ch)) then
      some (String.mk (c :: rest.takeWhile (fun ch => ch != '^')))
    else none

/-- `\s+(?<taskLine>\S[^\^]*)\^?.*$` — returns the `taskLine` capture
(see the derivation in the section header). -/
def classTaskLine (l : List Char) : Option String :=
  if (l.takeWhile isJsWhitespace).isEmpty then none
  else
    match l.dropWhile isJsWhitespace with
    | [] => none
    | c :: rest => classTail c rest

/-- One attempt of the class-level `strictPattern` at a fixed start position. -/
def classMatchAt (l : List Char) : Option ClassMatch :=
  match l with
  | m :: ' ' :: '[' :: rest =>
    if m = '-' ∨ m = '*' then
      (classBracket rest).bind (fun br =>
        (classTaskLine br.2).map (fun tl => ⟨br.1, tl⟩))
    else none
  | _ => none

/-- Leftmost search of the class-level `strictPattern`
(`line.match(TaskParser.strictPattern)`). -/
def classSearch : List Char → Option ClassMatch
  | [] => none
  | a :: t =>
    match classMatchAt (a :: t) with
    | some m => some m
    | none => classSearch t

/-! ### The parser's task records (TaskParser.ts lines 15-26) -/

/-- A (filePath, line) location, from `src/Task/types`. -/
structure TaskLocation where
  filePath : String
  line : Nat
deriving DecidableEq, Repr

/-- The `ITask` record as `parseLine`/`parseLinesToRecord` construct it:
completion flag, display name, locations.  `parseLine` spreads `emptyTask` and
overrides `complete` and `name`; it sets no identifier field. -/
structure ITask where
  complete : Bool
  name : String
  locations : List TaskLocation
deriving DecidableEq, Repr

/-- Modelled from the spec: `emptyTask` is imported from `./Task`, which is not
among the inspected sources.  It is the all-default task record that
`parseLine` spreads before overriding `complete` and `name`. -/
def emptyTask : ITask := { complete := false, name := "", locations := [] }

/-- `TaskParser.parseLine` (TaskParser.ts lines 15-26): match the class-level
`strictPattern`; on a match return `emptyTask` with `complete` set to
`complete === 'x'` (the captured group compared to the one-character string
`'x'`) and `name` set to `taskLine.trim()`; otherwise return `null`. -/
def TaskParser.parseLine (line : String) : Option ITask :=
  match classSearch line.toList with
  | some m =>
    some { emptyTask with complete := m.complete == some 'x', name := jsTrim m.taskLine }
  | none => none

/-! ### The module-level strict pattern (TaskParser.ts line 5)

`/^\s*(?:-|\*) \[(?<complete>\s|x)?\]\s+(?<taskLine>\S[^\^]*)(?: \^(?<id>[0-9A-Za-z]+))?$/gm`

With the `m` flag, `^` asserts start-of-input or a position right after a line
terminator, and `$` asserts end-of-input or a position right before a line
terminator.  The `\s*`, bracket and `\s+\S` steps determinize exactly as for
the class-level pattern.  After the `\S` character, with `u` the maximal
caret-free prefix of the remaining input, the suffix positions
`c :: u.take k` (k from `|u|` down to 0) are tried; at each, the optional
group `(?: \^(?<id>[0-9A-Za-z]+))?` matches a space, a caret and a maximal
nonempty alphanumeric run, and then `$` must hold; otherwise the group is
skipped and `$` must hold at the position itself.  `parseFileContents` uses
this pattern only through `line.match(...)`'s null-vs-match distinction
(see below), so only the Boolean result is embedded.
-/

/-- `$` under the `m` flag: end of input or just before a line terminator. -/
def moduleEndOk : List Char → Bool
  | [] => true
  | c :: _ => isLineTerminator c

/-- `(?: \^(?<id>[0-9A-Za-z]+))$` — the participating optional group followed
by the anchor. -/
def moduleGroupEnd : List Char → Bool
  | ' ' :: '^' :: w =>
    let a := w.takeWhile isAsciiAlnum
    !a.isEmpty && moduleEndOk (w.drop a.length)
  | _ => false

/-- `(?: \^(?<id>[0-9A-Za-z]+))?$` at one position. -/
def modulePosOk (r : List Char) : Bool := moduleGroupEnd r || moduleEndOk r

/-- Try `(?: \^(?<id>[0-9A-Za-z]+))?$` at every split of the caret-free run
(first argument: the reversed still-consumable part of the run; second: the
input after the current split point). -/
def moduleTryPositions : List Char → List Char → Bool
  | [], r => modulePosOk r
  | c :: uRev, r => modulePosOk r || moduleTryPositions uRev (c :: r)

/-- One attempt of the module-level pattern at a valid `^` position. -/
def moduleMatchAt (l : List Char) : Bool :=
  match l.dropWhile isJsWhitespace with
  | m :: ' ' :: '[' :: rest =>
    if m = '-' ∨ m = '*' then
      match classBracket rest with
      | some (_, rest2) =>
        if (rest2.takeWhile isJsWhitespace).isEmpty then false
        else
          match rest2.dropWhile isJsWhitespace with
          | [] => false
          | _ :: rest3 =>
            let u := rest3.takeWhile (fun ch => ch != '^')
            let v := rest3.drop u.length
            moduleTryPositions u.reverse v
      | none => false
    else false
  | _ => false

/-- Multiline search: attempt the pattern at position 0 and after every line
terminator (`^` with the `m` flag); `true` iff some attempt succeeds. -/
def moduleSearchGo : Bool → List Char → Bool
  | atBol, [] => atBol && moduleMatchAt []
  | atBol, c :: t => (atBol && moduleMatchAt (c :: t)) || moduleSearchGo (isLineTerminator c) t

/-- Whether `line.match(strictPattern)` (module-level pattern, `gm` flags) is
non-null. -/
def moduleMatches (l : List Char) : Bool := moduleSearchGo true l

/-! ### `parseFileContents` (TaskParser.ts lines 48-76) -/

/-- `contents.split(/(\r|\n)/g)`: because the split pattern contains a
capturing group, JavaScript keeps each separator as its own element of the
result, so for an n-line document the array holds the lines *and* the
separator characters interleaved. -/
def splitKeepSeps : List Char → List (List Char)
  | [] => [[]]
  | c :: rest =>
    if c = '\r' ∨ c = '\n' then [] :: [c] :: splitKeepSeps rest
    else
      match splitKeepSeps rest with
      | l :: ls => (c :: l) :: ls
      | [] => [[c]]

/-- The fields of an Obsidian `ListItemCache` that `parseFileContents` reads:
`task` (the status character string, absent for a plain list item), `parent`
(line number of the parent item, or negative), and `position.start.line`. -/
structure ListItemCache where
  task : Option String
  parent : Int
  startLine : Nat
deriving DecidableEq, Repr

/-- JavaScript truthiness of the `li.task` field: `undefined` and the empty
string are falsy. -/
def jsTruthyStr : Option String → Bool
  | none => false
  | some s => s != ""

/-- The `AnonymousDisplayTask` record built by `parseFileContents`.  On every
reachable execution path the construction is dead code (see
`parseFileContentsGo`), so only the shape matters; the `parent` back-reference
is represented by the parent's line number. -/
structure AnonymousDisplayTask where
  complete : Bool
  name : String
  location : TaskLocation
  id : Option Int := none
  parent : Option Nat := none
deriving DecidableEq, Repr

/-- The exceptions `parseFileContents` can raise: `jsError` for the explicit
`throw new Error(...)`, `typeError` for a TypeError raised by the runtime. -/
inductive JsError
  | jsError (msg : String)
  | typeError (msg : String)
deriving DecidableEq, Repr

/-- The loop of `parseFileContents` (lines 52-74).  For each cached task item:
if its start line is `>=` the length of the separator-keeping split array,
throw the explicit Error; otherwise match the indexed array element against
the module-level pattern.  Because that pattern carries the `g` flag,
`String.prototype.match` returns an array of matched substrings with no
`groups` property, so `match.groups` is `undefined` and the destructuring
`const {complete, taskLine, id} = match.groups` throws a TypeError; the task
construction below it in the source is unreachable. -/
def parseFileContentsGo (lines : List (List Char)) :
    List ListItemCache → List (Nat × AnonymousDisplayTask) →
    Except JsError (List (Nat × AnonymousDisplayTask))
  | [], ret => .ok ret
  | li :: rest, ret =>
    if li.startLine ≥ lines.length then
      .error (.jsError "Cache line number cannot be longer than file lines.")
    else
      let line := lines.getD li.startLine []
      if moduleMatches line then
        .error (.typeError "Cannot destructure property of undefined")
      else
        parseFileContentsGo lines rest ret

/-- `parseFileContents` (lines 48-76): filter the cached list items to the
task-flagged ones, split the contents keeping separators, and run the loop. -/
def parseFileContents (filePath : String) (contents : String)
    (listItems : List ListItemCache) : Except JsError (List (Nat × AnonymousDisplayTask)) :=
  let cacheTasks := listItems.filter (fun li => jsTruthyStr li.task)
  let lines := splitKeepSeps contents.toList
  parseFileContentsGo lines cacheTasks []

/-! ### Association-list operations for JavaScript object records

`Record<string, T>` values are embedded as association lists with the keys in
property-insertion order; the handlers below only ever build records with
distinct keys. -/

/-- Property read `rec[k]` (first occurrence wins; keys are distinct). -/
def lookupKey {α : Type} : List (String × α) → String → Option α
  | [], _ => none
  | (k', v) :: t, k => if k' = k then some v else lookupKey t k

/-- Property write `rec[k] = v`: overwrite in place, or append a new key. -/
def setKey {α : Type} : List (String × α) → String → α → List (String × α)
  | [], k, v => [(k, v)]
  | (k', v') :: t, k, v => if k' = k then (k, v) :: t else (k', v') :: setKey t k v

/-- Property deletion `delete rec[k]`. -/
def eraseKey {α : Type} (l : List (String × α)) (k : String) : List (String × α) :=
  l.filter (fun kv => kv.1 != k)

/-- `String.prototype.includes`: substring test, used by `ignorePath`. -/
def jsIncludes (s sub : String) : Bool :=
  (List.range (s.toList.length + 1)).any (fun i => sub.toList.isPrefixOf (s.toList.drop i))

/-! ### The engine state (main.ts)

`TaskFileManager`, `TaskStore`, `TaskEvents` and `src/Task` are declared in
files outside the inspected tree; their pieces that `main.ts` calls are
modelled from the specification (§3, §4.4, §6) and marked as such. -/

/-- Cache Status (spec §3): per-document CLEAN/DIRTY classification. -/
inductive CacheStatus
  | CLEAN
  | DIRTY
deriving DecidableEq, Repr

/-- The per-path record stored by `setFileStateHash` (main.ts lines 106, 113):
a Cache Status and the stored fingerprint. -/
structure FileState where
  status : CacheStatus
  hash : String
deriving DecidableEq, Repr

/-- A task instance as `handleCacheChanged` consumes it: identity (`uid`, 0 for
an anonymous task), location and content fields (spec §3). -/
structure TaskInstance where
  uid : Nat
  filePath : String
  line : Nat
  complete : Bool
  name : String
deriving DecidableEq, Repr

/-- `TaskInstanceIndex` (`src/Store/types`): a record from location keys to
task instances. -/
abbrev TaskInstanceIndex : Type := List (String × TaskInstance)

/-- The actions published through `TaskEvents.triggerFileCacheUpdate`
(`src/Events/types`, as used in main.ts lines 152, 159, 172-175). -/
inductive IndexUpdateAction
  | MODIFY_FILE_TASKS (data : TaskInstanceIndex)
  | DELETE_FILE (path : String)
  | RENAME_FILE (oldPath newPath : String)
deriving DecidableEq, Repr

/-- Modelled from the spec: `instanceIndexKey` (from `src/Task`, not among the
inspected sources) builds the location key of a (path, line) pair used to
index a `TaskInstanceIndex`. -/
def instanceIndexKey (filePath : String) (line : Nat) : String :=
  filePath ++ ":" ++ Nat.repr line

/-- Modelled from the spec: `taskLocationStr` (from `src/Task`) renders an
instance's own location as the same location key. -/
def taskLocationStr (i : TaskInstance) : String :=
  instanceIndexKey i.filePath i.line

/-- Serialization of one (location, identity, completion, text) tuple for the
fingerprint. -/
def serializeInstance (kv : String × TaskInstance) : String :=
  kv.1 ++ "|" ++ kv.2.filePath ++ "|" ++ Nat.repr kv.2.line ++ "|" ++
    Nat.repr kv.2.uid ++ "|" ++ (if kv.2.complete then "1" else "0") ++ "|" ++
    kv.2.name ++ ";"

/-- Ordering of location keys used to make the fingerprint order-insensitive. -/
def charListLe : List Char → List Char → Bool
  | [], _ => true
  | _ :: _, [] => false
  | a :: as, b :: bs =>
    if a.toNat < b.toNat then true
    else if b.toNat < a.toNat then false
    else charListLe as bs

/-- Insertion into a key-sorted association list. -/
def insertSortedByKey (kv : String × TaskInstance) :
    TaskInstanceIndex → TaskInstanceIndex
  | [] => [kv]
  | kv' :: t =>
    if charListLe kv.1.toList kv'.1.toList then kv :: kv' :: t
    else kv' :: insertSortedByKey kv t

/-- Key-insertion sort. -/
def sortByKey : TaskInstanceIndex → TaskInstanceIndex
  | [] => []
  | kv :: t => insertSortedByKey kv (sortByKey t)

/-- Modelled from the spec: `hashFileTaskState` (`src/TaskFileManager`, not
among the inspected sources) — §3: a deterministic fingerprint of the set of
(location, identity, completion, text) tuples belonging to one document,
computed identically for the index's belief and the live content, enabling
equality comparison.  Embedded as the serialization of the key-sorted
entries. -/
def hashFileTaskState (idx : TaskInstanceIndex) : String :=
  String.join ((sortByKey idx).map serializeInstance)

/-- The plugin state touched by the three `main.ts` event handlers. -/
structure PluginState where
  /-- Per-path `FileState` records of the `TaskFileManager` (spec §6). -/
  fileStates : List (String × FileState)
  /-- `this.taskStore.getState().instanceIndex`. -/
  storeInstanceIndex : TaskInstanceIndex
  /-- The log of actions published through `triggerFileCacheUpdate`. -/
  dispatched : List IndexUpdateAction
  /-- `this._activeFile` (a `TFile` is identified with its vault path). -/
  activeFilePath : Option String
  /-- `this.app.workspace.getActiveViewOfType(MarkdownView)?.file.path`. -/
  activeViewFilePath : Option String
  /-- `editor.getCursor().line` of the active view. -/
  cursorLine : Nat
  /-- `this.settings.ignoredPaths`. -/
  ignoredPaths : List String
deriving DecidableEq, Repr

/-- `ignorePath` (main.ts lines 117-119). -/
def ignorePath (ignoredPaths : List String) (filePath : String) : Bool :=
  decide ((ignoredPaths.filter (fun ignored => jsIncludes filePath ignored)).length > 0)

/-- Modelled from the spec: `TaskFileManager.testAndSetFileStatus` is not among
the inspected sources.  Spec §4.4/§3: on a change notification the DIRTY
status means the engine itself just wrote the file; the handler's call
`testAndSetFileStatus(path, CLEAN)` must report whether the recorded status
already was the given one and set it, so that a DIRTY path is swallowed
exactly once and flipped back to CLEAN.  A path with no recorded state is
reported as matching; none of the theorems below depends on that case. -/
def testAndSetFileStatus (states : List (String × FileState)) (path : String)
    (status : CacheStatus) : Bool × List (String × FileState) :=
  match lookupKey states path with
  | some fs => (fs.status == status, setKey states path { fs with status := status })
  | none => (true, setKey states path { status := status, hash := "" })

/-- Modelled from the spec: `TaskFileManager.getFileStateHash` (spec §6)
returns the recorded per-path file state, or `undefined` for a path that was
never tracked. -/
def getFileStateHash (states : List (String × FileState)) (path : String) :
    Option FileState :=
  lookupKey states path

/-- Lines 139-141 of main.ts: if the live instance index has an entry at the
cursor's line key and its `uid` is 0, delete that entry. -/
def adjustForCursor (path : String) (cursorLine : Nat)
    (live : TaskInstanceIndex) : TaskInstanceIndex :=
  match lookupKey live (instanceIndexKey path cursorLine) with
  | some inst =>
    if inst.uid = 0 then eraseKey live (instanceIndexKey path cursorLine) else live
  | none => live

/-- Lines 142-144 of main.ts: the store's belief for the path, re-keyed by
`taskLocationStr`.  (`values` enumerates the record in insertion order.) -/
def existingIndexForPath (store : TaskInstanceIndex) (path : String) :
    TaskInstanceIndex :=
  ((store.map Prod.snd).filter (fun i => i.filePath == path)).map
    (fun i => (taskLocationStr i, i))

/-- Whether the guard of main.ts lines 123-128 returns early: a Markdown view
is active and shows a different path. -/
def viewGuardBlocks (s : PluginState) (path : String) : Bool :=
  match s.activeViewFilePath with
  | some vp => vp != path
  | none => false

/-- Lines 133-153 of main.ts after the two guards: `proceed` is the result of
`testAndSetFileStatus(path, CLEAN)` and `s1` the state with the status already
set; `!proceed` means the notification was swallowed (line 134's `return`).
Otherwise read the cursor (line 137 — a TypeError if no view is active),
adjust the live index at the cursor line, and dispatch `MODIFY_FILE_TASKS`
when the fingerprints differ. -/
def handleCacheChangedCore (s1 : PluginState) (proceed : Bool) (path : String)
    (live : TaskInstanceIndex) : PluginState × Bool :=
  if !proceed then (s1, false)
  else
    match s1.activeViewFilePath with
    | none => (s1, true)
    | some _ =>
      if hashFileTaskState (adjustForCursor path s1.cursorLine live) ≠
          hashFileTaskState (existingIndexForPath s1.storeInstanceIndex path) then
        ({ s1 with
            dispatched := s1.dispatched ++
              [IndexUpdateAction.MODIFY_FILE_TASKS
                (adjustForCursor path s1.cursorLine live)] },
          false)
      else (s1, false)

/-- `handleCacheChanged` (main.ts lines 121-154), as a state transition.  The
`live` argument stands for
`await this.taskFileManager.getInstanceIndexFromFile(file)` — the instance
index parsed from the document's current text (an external read, spec §6).
The returned Boolean is `true` when the handler throws: with no active
Markdown view, line 137 reads `.editor` of `null` and raises a TypeError.
The debounced `triggerFileCacheUpdate` call (lines 146-152) is modelled as an
immediate append to the dispatch log; debouncing affects only the timing and
coalescing of deliveries, not whether this notification produces a dispatch. -/
def handleCacheChanged (s : PluginState) (path : String)
    (live : TaskInstanceIndex) : PluginState × Bool :=
  if viewGuardBlocks s path then (s, false)
  else if s.activeFilePath ≠ some path ∨ ignorePath s.ignoredPaths path then (s, false)
  else
    handleCacheChangedCore
      { s with fileStates := (testAndSetFileStatus s.fileStates path CacheStatus.CLEAN).2 }
      (testAndSetFileStatus s.fileStates path CacheStatus.CLEAN).1 path live


/-- Obsidian's `TAbstractFile`: a file or a folder, identified by path. -/
inductive TAbstractFile
  | file (path : String)
  | folder (path : String)
deriving DecidableEq, Repr

/-- The path of an abstract file. -/
def TAbstractFile.path : TAbstractFile → String
  | .file p => p
  | .folder p => p

/-- `handleFileDeleted` (main.ts lines 156-161): for a `TFile` whose path has a
recorded file state, publish `DELETE_FILE`; otherwise do nothing. -/
def handleFileDeleted (s : PluginState) (abstractFile : TAbstractFile) : PluginState :=
  match abstractFile with
  | .file p =>
    if (getFileStateHash s.fileStates p).isSome then
      { s with dispatched := s.dispatched ++ [IndexUpdateAction.DELETE_FILE p] }
    else s
  | .folder _ => s

/-- `handleFileRenamed` (main.ts lines 170-177): if the old path has a recorded
file state, publish `RENAME_FILE`; otherwise do nothing. -/
def handleFileRenamed (s : PluginState) (abstractFile : TAbstractFile)
    (oldPath : String) : PluginState :=
  if (getFileStateHash s.fileStates oldPath).isSome then
    { s with
        dispatched := s.dispatched ++
          [IndexUpdateAction.RENAME_FILE oldPath abstractFile.path] }
  else s

/-! ### Concrete states used by the witness theorems -/

/-- A stored (identity-bearing) task instance. -/
def inst1 : TaskInstance :=
  { uid := 7, filePath := "a.md", line := 1, complete := false, name := "milk" }

/-- An anonymous (uid 0) task instance on line 0. -/
def anonInst : TaskInstance :=
  { uid := 0, filePath := "a.md", line := 0, complete := false, name := "draft" }

/-- A live instance index holding `inst1`. -/
def demoLive : TaskInstanceIndex := [(instanceIndexKey "a.md" 1, inst1)]

/-- A state in which `a.md` is active, focused and recorded DIRTY. -/
def stateDirty : PluginState :=
  { fileStates := [("a.md", { status := CacheStatus.DIRTY, hash := "H" })],
    storeInstanceIndex := [],
    dispatched := [],
    activeFilePath := some "a.md",
    activeViewFilePath := some "a.md",
    cursorLine := 0,
    ignoredPaths := [] }

/-- The same state with `a.md` recorded CLEAN. -/
def stateClean : PluginState :=
  { stateDirty with fileStates := [("a.md", { status := CacheStatus.CLEAN, hash := "H" })] }

/-- The CLEAN state with `inst1` in the store's instance index. -/
def stateStore : PluginState :=
  { stateClean with storeInstanceIndex := demoLive }

/-! ### Helper lemmas -/

theorem lookupKey_setKey_self {α : Type} (l : List (String × α)) (k : String) (v : α) :
    lookupKey (setKey l k v) k = some v := by
  induction l with
  | nil => simp [setKey, lookupKey]
  | cons kv t ih =>
    obtain ⟨k', v'⟩ := kv
    by_cases hk : k' = k
    · simp [setKey, hk, lookupKey]
    · simp [setKey, hk, lookupKey, ih]

theorem eraseKey_eq_of_lookup_none {α : Type} (l : List (String × α)) (k : String)
    (h : lookupKey l k = none) : eraseKey l k = l := by
  induction l with
  | nil => rfl
  | cons kv t ih =>
    obtain ⟨k', v'⟩ := kv
    by_cases hk : k' = k
    · simp [lookupKey, hk] at h
    · simp only [lookupKey, if_neg hk] at h
      have ht := ih h
      simp only [eraseKey] at ht ⊢
      simp [List.filter_cons, bne_iff_ne, hk, ht]

theorem head_dropWhile_false (p : Char → Bool) (l : List Char) (c : Char) (t : List Char)
    (h : l.dropWhile p = c :: t) : p c = false := by
  induction l with
  | nil => simp [List.dropWhile] at h
  | cons a as ih =>
    rw [List.dropWhile_cons] at h
    by_cases hp : p a
    · rw [if_pos hp] at h
      exact ih h
    · rw [if_neg hp] at h
      obtain ⟨h1, _⟩ := List.cons.injEq .. ▸ h
      rw [← h1]
      exact Bool.eq_false_iff.mpr hp

theorem dropWhile_append_singleton (p : Char → Bool) (c : Char) (hc : p c = false)
    (A : List Char) : (A ++ [c]).dropWhile p = A.dropWhile p ++ [c] := by
  induction A with
  | nil => simp [List.dropWhile_cons, hc]
  | cons a as ih =>
    rw [List.cons_append, List.dropWhile_cons, List.dropWhile_cons]
    by_cases hp : p a <;> simp [hp, ih]

theorem jsTrim_cons (c : Char) (u : List Char) (hc : isJsWhitespace c = false) :
    jsTrim (String.mk (c :: u)) =
      String.mk (c :: (u.reverse.dropWhile isJsWhitespace).reverse) := by
  have h1 : (String.mk (c :: u)).toList = c :: u := rfl
  rw [jsTrim, h1, List.dropWhile_cons, if_neg (by simp [hc]), List.reverse_cons,
    dropWhile_append_singleton isJsWhitespace c hc, List.reverse_append]
  rfl

theorem classBracket_complete_spec (l : List Char) (copt : Option Char) (rest : List Char)
    (h : classBracket l = some (copt, rest)) :
    copt = none ∨ copt = some 'x' ∨ ∃ c, copt = some c ∧ isJsWhitespace c = true := by
  unfold classBracket at h
  split at h
  · simp at h
  · split at h
    · simp only [Option.some.injEq, Prod.mk.injEq] at h
      exact Or.inl h.1.symm
    · rename_i c r hne
      split at h
      · rename_i hcls
        split at h
        · simp only [Option.some.injEq, Prod.mk.injEq] at h
          rcases Bool.or_eq_true .. |>.mp hcls with hw | hx
          · exact Or.inr (Or.inr ⟨c, h.1.symm, hw⟩)
          · exact Or.inr (Or.inl (by rw [← h.1, show c = 'x' from by simpa using hx]))
        · simp at h
      · simp at h

theorem classTail_spec (c : Char) (rest : List Char) (s : String)
    (h : classTail c rest = some s) :
    s = String.mk (c :: rest.takeWhile (fun ch => ch != '^')) := by
  unfold classTail at h
  split at h
  · simpa using h.symm
  · split at h
    · simpa using h.symm
    · simp at h

theorem classTaskLine_spec (l : List Char) (s : String) (h : classTaskLine l = some s) :
    ∃ c u, isJsWhitespace c = false ∧ (∀ x ∈ u, x ≠ '^') ∧ s = String.mk (c :: u) := by
  unfold classTaskLine at h
  split at h
  · simp at h
  · split at h
    · simp at h
    · rename_i c rest heq
      exact ⟨c, rest.takeWhile (fun ch => ch != '^'),
        head_dropWhile_false isJsWhitespace l c rest heq,
        fun x hx => by simpa using List.mem_takeWhile_imp hx,
        classTail_spec c rest s h⟩

theorem classMatchAt_spec (l : List Char) (mm : ClassMatch) (h : classMatchAt l = some mm) :
    (mm.complete = none ∨ mm.complete = some 'x' ∨
      ∃ c, mm.complete = some c ∧ isJsWhitespace c = true) ∧
    (∃ c u, isJsWhitespace c = false ∧ (∀ x ∈ u, x ≠ '^') ∧
      mm.taskLine = String.mk (c :: u)) := by
  unfold classMatchAt at h
  split at h
  · rename_i mk rest
    split at h
    · rw [Option.bind_eq_some] at h
      obtain ⟨br, hbr, hmap⟩ := h
      rw [Option.map_eq_some'] at hmap
      obtain ⟨tl, htl, rfl⟩ := hmap
      exact ⟨classBracket_complete_spec rest br.1 br.2 (by simpa using hbr),
        classTaskLine_spec br.2 tl htl⟩
    · simp at h
  · simp at h

theorem classSearch_spec (l : List Char) (mm : ClassMatch) (h : classSearch l = some mm) :
    (mm.complete = none ∨ mm.complete = some 'x' ∨
      ∃ c, mm.complete = some c ∧ isJsWhitespace c = true) ∧
    (∃ c u, isJsWhitespace c = false ∧ (∀ x ∈ u, x ≠ '^') ∧
      mm.taskLine = String.mk (c :: u)) := by
  induction l with
  | nil => simp [classSearch] at h
  | cons a t ih =>
    unfold classSearch at h
    split at h
    · rename_i m1 hm1
      obtain rfl : m1 = mm := by simpa using h
      exact classMatchAt_spec (a :: t) m1 hm1
    · exact ih h

theorem parseLine_spec (line : String) (t : ITask) (h : TaskParser.parseLine line = some t) :
    ∃ mm, classSearch line.toList = some mm ∧
      t.complete = (mm.complete == some 'x') ∧ t.name = jsTrim mm.taskLine := by
  unfold TaskParser.parseLine at h
  split at h
  · rename_i mm hmm
    simp only [Option.some.injEq] at h
    subst h
    exact ⟨mm, hmm, rfl, rfl⟩
  · simp at h

theorem parseLine_name_structure (line : String) (t : ITask)
    (h : TaskParser.parseLine line = some t) :
    ∃ (c : Char) (u : List Char), isJsWhitespace c = false ∧ (∀ x ∈ u, x ≠ '^') ∧
      t.name = String.mk (c :: (u.reverse.dropWhile isJsWhitespace).reverse) := by
  obtain ⟨mm, hmm, _, hname⟩ := parseLine_spec line t h
  obtain ⟨_, c, u, hc, hu, htl⟩ := classSearch_spec line.toList mm hmm
  exact ⟨c, u, hc, hu, by rw [hname, htl, jsTrim_cons c u hc]⟩

theorem parseLine_trimmed_edges (line : String) (t : ITask)
    (h : TaskParser.parseLine line = some t) :
    (∀ c, t.name.toList.head? = some c → isJsWhitespace c = false) ∧
    (∀ c, t.name.toList.getLast? = some c → isJsWhitespace c = false) := by
  obtain ⟨c, u, hc, _, hname⟩ := parseLine_name_structure line t h
  have hl : t.name.toList = c :: (u.reverse.dropWhile isJsWhitespace).reverse := by
    rw [hname]
    rfl
  constructor
  · intro c' hc'
    rw [hl] at hc'
    obtain rfl : c = c' := by simpa using hc'
    exact hc
  · intro c' hc'
    have hrev : t.name.toList = ((u.reverse.dropWhile isJsWhitespace) ++ [c]).reverse := by
      rw [hl, List.reverse_append]
      rfl
    rw [hrev, List.getLast?_reverse] at hc'
    rcases hZ : u.reverse.dropWhile isJsWhitespace with _ | ⟨z, zs⟩
    · rw [hZ] at hc'
      obtain rfl : c = c' := by simpa using hc'
      exact hc
    · rw [hZ] at hc'
      obtain rfl : z = c' := by simpa using hc'
      exact head_dropWhile_false isJsWhitespace u.reverse z zs hZ

theorem handleCacheChanged_swallow (s : PluginState) (path : String)
    (live : TaskInstanceIndex) (hsh : String)
    (hview : s.activeViewFilePath = some path)
    (hactive : s.activeFilePath = some path)
    (hignore : ignorePath s.ignoredPaths path = false)
    (hstate : lookupKey s.fileStates path = some ⟨CacheStatus.DIRTY, hsh⟩) :
    handleCacheChanged s path live =
      ({ s with fileStates := setKey s.fileStates path ⟨CacheStatus.CLEAN, hsh⟩ }, false) := by
  have hts : testAndSetFileStatus s.fileStates path CacheStatus.CLEAN =
      (false, setKey s.fileStates path ⟨CacheStatus.CLEAN, hsh⟩) := by
    simp [testAndSetFileStatus, hstate]
  unfold handleCacheChanged
  rw [if_neg (by simp [viewGuardBlocks, hview]), if_neg (by simp [hactive, hignore]), hts]
  simp [handleCacheChangedCore]

theorem handleCacheChanged_clean_run (s : PluginState) (path : String)
    (live : TaskInstanceIndex) (hsh : String)
    (hview : s.activeViewFilePath = some path)
    (hactive : s.activeFilePath = some path)
    (hignore : ignorePath s.ignoredPaths path = false)
    (hstate : lookupKey s.fileStates path = some ⟨CacheStatus.CLEAN, hsh⟩) :
    handleCacheChanged s path live =
      (if hashFileTaskState (adjustForCursor path s.cursorLine live) ≠
          hashFileTaskState (existingIndexForPath s.storeInstanceIndex path) then
        ({ s with
            fileStates := setKey s.fileStates path ⟨CacheStatus.CLEAN, hsh⟩,
            dispatched := s.dispatched ++
              [IndexUpdateAction.MODIFY_FILE_TASKS
                (adjustForCursor path s.cursorLine live)] },
          false)
       else
        ({ s with fileStates := setKey s.fileStates path ⟨CacheStatus.CLEAN, hsh⟩ },
          false)) := by
  have hts : testAndSetFileStatus s.fileStates path CacheStatus.CLEAN =
      (true, setKey s.fileStates path ⟨CacheStatus.CLEAN, hsh⟩) := by
    simp [testAndSetFileStatus, hstate]
  unfold handleCacheChanged
  rw [if_neg (by simp [viewGuardBlocks, hview]), if_neg (by simp [hactive, hignore]), hts]
  unfold handleCacheChangedCore
  simp only [Bool.not_true, Bool.false_eq_true, if_false]
  rw [show ({ s with fileStates := setKey s.fileStates path ⟨CacheStatus.CLEAN, hsh⟩ }
      : PluginState).activeViewFilePath = some path from hview]

/-- Claim C1: after the engine's own write-back the document's status is DIRTY;
the immediately following change notification for the document is swallowed
exactly once — the handler dispatches no reconciliation and flips the status
back to CLEAN — and a subsequent notification is processed normally (it
dispatches whenever the live and stored fingerprints differ). -/
theorem c1_self_write_suppression (s : PluginState) (path : String)
    (live : TaskInstanceIndex) (hsh : String)
    (hview : s.activeViewFilePath = some path)
    (hactive : s.activeFilePath = some path)
    (hignore : ignorePath s.ignoredPaths path = false)
    (hstate : lookupKey s.fileStates path = some ⟨CacheStatus.DIRTY, hsh⟩) :
    (handleCacheChanged s path live).2 = false ∧
    (handleCacheChanged s path live).1.dispatched = s.dispatched ∧
    lookupKey (handleCacheChanged s path live).1.fileStates path =
      some ⟨CacheStatus.CLEAN, hsh⟩ ∧
    (hashFileTaskState (adjustForCursor path s.cursorLine live) ≠
        hashFileTaskState (existingIndexForPath s.storeInstanceIndex path) →
      (handleCacheChanged (handleCacheChanged s path live).1 path live).1.dispatched =
        s.dispatched ++
          [IndexUpdateAction.MODIFY_FILE_TASKS
            (adjustForCursor path s.cursorLine live)]) := by
  have h1 := handleCacheChanged_swallow s path live hsh hview hactive hignore hstate
  refine ⟨by rw [h1], by rw [h1], ?_, ?_⟩
  · rw [h1]
    exact lookupKey_setKey_self s.fileStates path ⟨CacheStatus.CLEAN, hsh⟩
  · intro hd
    have hstate1 : lookupKey (setKey s.fileStates path
        (FileState.mk CacheStatus.CLEAN hsh)) path =
        some (FileState.mk CacheStatus.CLEAN hsh) :=
      lookupKey_setKey_self s.fileStates path (FileState.mk CacheStatus.CLEAN hsh)
    have h2 := handleCacheChanged_clean_run
      { s with fileStates := setKey s.fileStates path (FileState.mk CacheStatus.CLEAN hsh) }
      path live hsh hview hactive hignore hstate1
    rw [h1]
    dsimp only
    rw [h2, if_pos hd]

/-- Claim C6: when the fingerprint of the live task state (as the handler
computes it) equals the fingerprint of the index's stored belief for the path,
the document is marked CLEAN and no mutation is dispatched; running the
handler a second time with the same live index again dispatches nothing and
leaves the status CLEAN. -/
theorem c6_fingerprint_match_idempotent (s : PluginState) (path : String)
    (live : TaskInstanceIndex) (hsh : String)
    (hview : s.activeViewFilePath = some path)
    (hactive : s.activeFilePath = some path)
    (hignore : ignorePath s.ignoredPaths path = false)
    (hstate : lookupKey s.fileStates path = some ⟨CacheStatus.CLEAN, hsh⟩)
    (hhash : hashFileTaskState (adjustForCursor path s.cursorLine live) =
        hashFileTaskState (existingIndexForPath s.storeInstanceIndex path)) :
    (handleCacheChanged s path live).1.dispatched = s.dispatched ∧
    lookupKey (handleCacheChanged s path live).1.fileStates path =
      some ⟨CacheStatus.CLEAN, hsh⟩ ∧
    (handleCacheChanged (handleCacheChanged s path live).1 path live).1.dispatched =
      s.dispatched ∧
    lookupKey (handleCacheChanged (handleCacheChanged s path live).1 path
        live).1.fileStates path = some ⟨CacheStatus.CLEAN, hsh⟩ := by
  have h1 := handleCacheChanged_clean_run s path live hsh hview hactive hignore hstate
  rw [if_neg (not_ne_iff.mpr hhash)] at h1
  have hstate1 : lookupKey (setKey s.fileStates path
      (FileState.mk CacheStatus.CLEAN hsh)) path =
      some (FileState.mk CacheStatus.CLEAN hsh) :=
    lookupKey_setKey_self s.fileStates path (FileState.mk CacheStatus.CLEAN hsh)
  have h2 := handleCacheChanged_clean_run
    { s with fileStates := setKey s.fileStates path (FileState.mk CacheStatus.CLEAN hsh) }
    path live hsh hview hactive hignore hstate1
  rw [if_neg (not_ne_iff.mpr hhash)] at h2
  refine ⟨by rw [h1], ?_, ?_, ?_⟩
  · rw [h1]
    exact hstate1
  · rw [h1]
    dsimp only
    rw [h2]
  · rw [h1]
    dsimp only
    rw [h2]
    exact lookupKey_setKey_self _ path (FileState.mk CacheStatus.CLEAN hsh)

/-- Claim C7: a change notification for a document that is not the currently
active document leaves the state entirely unchanged: no reconciliation is
dispatched through the change-notification path. -/
theorem c7_inactive_document_ignored (s : PluginState) (path : String)
    (live : TaskInstanceIndex) (hne : s.activeFilePath ≠ some path) :
    handleCacheChanged s path live = (s, false) := by
  unfold handleCacheChanged
  by_cases hv : viewGuardBlocks s path = true
  · rw [if_pos hv]
  · rw [if_neg hv, if_pos (Or.inl hne)]

/-- Claim C9: during a change notification on the active file, an entry at the
cursor line whose uid is 0 is removed from the live index before the hash
comparison; when the live index differs from the stored belief only by such an
anonymous cursor-line entry, no MODIFY_FILE_TASKS is dispatched. -/
theorem c9_anonymous_cursor_entry_suppressed (s : PluginState) (path : String)
    (inst : TaskInstance) (live : TaskInstanceIndex) (hsh : String)
    (hview : s.activeViewFilePath = some path)
    (hactive : s.activeFilePath = some path)
    (hignore : ignorePath s.ignoredPaths path = false)
    (hstate : lookupKey s.fileStates path = some ⟨CacheStatus.CLEAN, hsh⟩)
    (huid : inst.uid = 0)
    (hlive : live = (instanceIndexKey path s.cursorLine, inst) ::
        existingIndexForPath s.storeInstanceIndex path)
    (hfresh : lookupKey (existingIndexForPath s.storeInstanceIndex path)
        (instanceIndexKey path s.cursorLine) = none) :
    (handleCacheChanged s path live).1.dispatched = s.dispatched ∧
    (handleCacheChanged s path live).2 = false := by
  have hadj : adjustForCursor path s.cursorLine live =
      existingIndexForPath s.storeInstanceIndex path := by
    have hlook : lookupKey ((instanceIndexKey path s.cursorLine, inst) ::
        existingIndexForPath s.storeInstanceIndex path)
        (instanceIndexKey path s.cursorLine) = some inst := by
      simp [lookupKey]
    rw [hlive]
    simp only [adjustForCursor, hlook]
    rw [if_pos huid]
    have hdrop : eraseKey ((instanceIndexKey path s.cursorLine, inst) ::
        existingIndexForPath s.storeInstanceIndex path)
        (instanceIndexKey path s.cursorLine) =
        eraseKey (existingIndexForPath s.storeInstanceIndex path)
          (instanceIndexKey path s.cursorLine) := by
      simp [eraseKey, List.filter_cons]
    rw [hdrop, eraseKey_eq_of_lookup_none _ _ hfresh]
  have h1 := handleCacheChanged_clean_run s path live hsh hview hactive hignore hstate
  rw [hadj, if_neg (not_ne_iff.mpr rfl)] at h1
  exact ⟨by rw [h1], by rw [h1]⟩

/-- Claim C10: `handleFileDeleted` and `handleFileRenamed` publish their
DELETE_FILE / RENAME_FILE action exactly when the deleted path (respectively
the old path) has a recorded file state; for an untracked path the handler
does nothing at all, so the task index is left unchanged. -/
theorem c10_delete_rename_tracked_guard (s : PluginState) (p oldPath : String)
    (af : TAbstractFile) :
    ((getFileStateHash s.fileStates p).isSome = true →
      handleFileDeleted s (TAbstractFile.file p) =
        { s with dispatched := s.dispatched ++ [IndexUpdateAction.DELETE_FILE p] }) ∧
    ((getFileStateHash s.fileStates p).isSome = false →
      handleFileDeleted s (TAbstractFile.file p) = s) ∧
    ((getFileStateHash s.fileStates oldPath).isSome = true →
      handleFileRenamed s af oldPath =
        { s with dispatched := s.dispatched ++
            [IndexUpdateAction.RENAME_FILE oldPath af.path] }) ∧
    ((getFileStateHash s.fileStates oldPath).isSome = false →
      handleFileRenamed s af oldPath = s) := by
  refine ⟨fun h => ?_, fun h => ?_, fun h => ?_, fun h => ?_⟩
  · simp [handleFileDeleted, h]
  · simp [handleFileDeleted, h]
  · simp [handleFileRenamed, h]
  · simp [handleFileRenamed, h]

/-- Claim C2 counterexample: the claim asserts that `* [X] Review PR` parses as
a task with complete true, but the class-level pattern used by `parseLine`
accepts only a whitespace character or the lowercase letter `x` inside the
bracket, so the line yields no match at all. -/
theorem c2_counterexample : TaskParser.parseLine "* [X] Review PR" = none := by decide

/-- Claim C2 (amended): the bracketed status token accepted by `parseLine` is a
single whitespace character, the lowercase letter `x`, or nothing; only `x`
yields a complete task and a blank (or empty) bracket yields an incomplete
task; uppercase `X` is not accepted, so `* [X] Review PR` yields no match, and
`- [z] bad status` yields no match. -/
theorem c2_status_token_classification :
    (∀ (l : List Char) (mm : ClassMatch), classSearch l = some mm →
      mm.complete = none ∨ mm.complete = some 'x' ∨
        ∃ c, mm.complete = some c ∧ isJsWhitespace c = true) ∧
    (∀ (line : String) (t : ITask) (mm : ClassMatch),
      classSearch line.toList = some mm → TaskParser.parseLine line = some t →
      (t.complete = true ↔ mm.complete = some 'x')) ∧
    TaskParser.parseLine "* [X] Review PR" = none ∧
    TaskParser.parseLine "- [z] bad status" = none ∧
    TaskParser.parseLine "* [x] Review PR" =
      some { complete := true, name := "Review PR", locations := [] } ∧
    TaskParser.parseLine "- [ ] Review PR" =
      some { complete := false, name := "Review PR", locations := [] } := by
  refine ⟨fun l mm h => (classSearch_spec l mm h).1, ?_, by decide, by decide, by decide,
    by decide⟩
  intro line t mm hmm hparse
  obtain ⟨mm2, hmm2, hcompl, _⟩ := parseLine_spec line t hparse
  obtain rfl : mm2 = mm := by rw [hmm2] at hmm; simpa using hmm
  rw [hcompl]
  simp

/-- Claim C2 witness: the amended classification applied to the concrete match
of `- [x] a`. -/
theorem c2_status_token_classification_witness :
    (⟨some 'x', "a"⟩ : ClassMatch).complete = none ∨
    (⟨some 'x', "a"⟩ : ClassMatch).complete = some 'x' ∨
    ∃ c, (⟨some 'x', "a"⟩ : ClassMatch).complete = some c ∧ isJsWhitespace c = true :=
  c2_status_token_classification.1 ("- [x] a".toList) ⟨some 'x', "a"⟩ (by decide)

/-- Claim C3 counterexample: the claim asserts that parsing
`- [x] Call Bob ^a1` returns the identifier `a1`, but `parseLine` discards the
caret suffix entirely: the result is the identifier-free record and coincides
with the result of parsing the same line without the identifier. -/
theorem c3_counterexample :
    TaskParser.parseLine "- [x] Call Bob ^a1" = TaskParser.parseLine "- [x] Call Bob" ∧
    TaskParser.parseLine "- [x] Call Bob ^a1" =
      some { complete := true, name := "Call Bob", locations := [] } := by
  constructor <;> decide

/-- Claim C3 (amended): for a matching line `parseLine` returns as display text
the text after the status token up to the first caret, trimmed of surrounding
whitespace (no leading or trailing whitespace remains), and does not return any
identifier: `- [ ] Buy milk` yields an incomplete task named `Buy milk`, and
`- [x] Call Bob ^a1` yields a complete task named `Call Bob` with no
identifier field. -/
theorem c3_display_text_and_no_id :
    TaskParser.parseLine "- [ ] Buy milk" =
      some { complete := false, name := "Buy milk", locations := [] } ∧
    TaskParser.parseLine "- [x] Call Bob ^a1" =
      some { complete := true, name := "Call Bob", locations := [] } ∧
    (∀ (line : String) (t : ITask), TaskParser.parseLine line = some t →
      (∀ c, t.name.toList.head? = some c → isJsWhitespace c = false) ∧
      (∀ c, t.name.toList.getLast? = some c → isJsWhitespace c = false)) := by
  exact ⟨by decide, by decide, parseLine_trimmed_edges⟩

/-- Claim C3 witness: the amended statement applied to `- [x]   padded   `. -/
theorem c3_display_text_and_no_id_witness :
    (∀ c, ({ complete := true, name := "padded", locations := [] }
        : ITask).name.toList.head? = some c → isJsWhitespace c = false) ∧
    (∀ c, ({ complete := true, name := "padded", locations := [] }
        : ITask).name.toList.getLast? = some c → isJsWhitespace c = false) :=
  c3_display_text_and_no_id.2.2 "- [x]   padded   "
    { complete := true, name := "padded", locations := [] } (by decide)

/-- Claim C4: `parseLine` is total — every input yields either `none` (no
match, a normal outcome) or a task record — and deterministic: identical
inputs yield identical results. -/
theorem c4_parseLine_total_deterministic :
    (∀ L : String, TaskParser.parseLine L = none ∨
      ∃ t, TaskParser.parseLine L = some t) ∧
    (∀ L1 L2 : String, L1 = L2 → TaskParser.parseLine L1 = TaskParser.parseLine L2) := by
  constructor
  · intro L
    rcases h : TaskParser.parseLine L with _ | t
    · exact Or.inl rfl
    · exact Or.inr ⟨t, rfl⟩
  · intro L1 L2 h
    rw [h]

/-- Claim C4 witness: totality and determinism at concrete inputs. -/
theorem c4_parseLine_total_deterministic_witness :
    (TaskParser.parseLine "- [x] a" = none ∨
      ∃ t, TaskParser.parseLine "- [x] a" = some t) ∧
    TaskParser.parseLine "zz" = TaskParser.parseLine "zz" :=
  ⟨c4_parseLine_total_deterministic.1 "- [x] a",
    c4_parseLine_total_deterministic.2 "zz" "zz" rfl⟩

/-- Claim C5: evaluation of `parseFileContents` at the inputs exhibiting the
divergence.  For the one-line document `- [ ] a` with a cached task item at
line 0 — where the claim requires a normal return with one task record — the
function throws a TypeError (the module-level pattern carries the `g` flag, so
`match.groups` is `undefined` and the destructuring fails).  For the two-line
document `a\nb` with a stale cached item at line 2 — past the end of the
document, where the claim requires the explicit range error — the function
returns normally, because the separator-keeping split inflates the array to
length 3. -/
theorem c5_parseFileContents_bug :
    parseFileContents "f.md" "- [ ] a" [⟨some " ", -1, 0⟩] =
      Except.error (JsError.typeError "Cannot destructure property of undefined") ∧
    parseFileContents "f.md" "a\nb" [⟨some " ", -1, 2⟩] = Except.ok [] := by
  constructor <;> rfl

/-- Claim C8 counterexample: the claim asserts that the marker must be the
first non-whitespace content of the line and that no caret occurs in the
returned body text; but the class-level pattern used by `parseLine` is
unanchored — `x - [ ] hello` matches although the marker is preceded by other
non-whitespace text — and the body text of `- [ ] ^abc` is `^abc`, which
contains (indeed starts with) a caret. -/
theorem c8_counterexample :
    TaskParser.parseLine "x - [ ] hello" =
      some { complete := false, name := "hello", locations := [] } ∧
    TaskParser.parseLine "- [ ] ^abc" =
      some { complete := false, name := "^abc", locations := [] } := by
  constructor <;> decide

/-- Claim C8 (amended): matching by `parseLine` is unanchored — a line whose
marker is preceded by other non-whitespace text can still match, as
`x - [ ] hello` shows — and a caret never occurs in the returned body text
after its first character (the first character, matched by `\S`, may itself be
a caret). -/
theorem c8_unanchored_and_caret_free_tail :
    (∀ (line : String) (t : ITask), TaskParser.parseLine line = some t →
      ∀ x ∈ t.name.toList.tail, x ≠ '^') ∧
    TaskParser.parseLine "x - [ ] hello" =
      some { complete := false, name := "hello", locations := [] } := by
  refine ⟨?_, by decide⟩
  intro line t h x hx
  obtain ⟨c, u, hc, hu, hname⟩ := parseLine_name_structure line t h
  have htail : t.name.toList.tail = (u.reverse.dropWhile isJsWhitespace).reverse := by
    rw [hname]
    rfl
  rw [htail] at hx
  exact hu x (List.mem_reverse.mp
    ((List.dropWhile_suffix isJsWhitespace).subset (List.mem_reverse.mp hx)))

/-- Claim C8 witness: the amended caret-free-tail property at `- [ ] a^b`. -/
theorem c8_unanchored_and_caret_free_tail_witness :
    ∀ x ∈ ({ complete := false, name := "a", locations := [] }
        : ITask).name.toList.tail, x ≠ '^' :=
  c8_unanchored_and_caret_free_tail.1 "- [ ] a^b"
    { complete := false, name := "a", locations := [] } (by decide)

/-- Claim C1 witness: the suppression theorem at the concrete DIRTY state. -/
theorem c1_self_write_suppression_witness :
    lookupKey stateDirty.fileStates "a.md" = some ⟨CacheStatus.DIRTY, "H"⟩ ∧
    ((handleCacheChanged stateDirty "a.md" demoLive).2 = false ∧
      (handleCacheChanged stateDirty "a.md" demoLive).1.dispatched =
        stateDirty.dispatched ∧
      lookupKey (handleCacheChanged stateDirty "a.md" demoLive).1.fileStates "a.md" =
        some ⟨CacheStatus.CLEAN, "H"⟩ ∧
      (hashFileTaskState (adjustForCursor "a.md" stateDirty.cursorLine demoLive) ≠
          hashFileTaskState (existingIndexForPath stateDirty.storeInstanceIndex
            "a.md") →
        (handleCacheChanged (handleCacheChanged stateDirty "a.md" demoLive).1 "a.md"
            demoLive).1.dispatched =
          stateDirty.dispatched ++
            [IndexUpdateAction.MODIFY_FILE_TASKS
              (adjustForCursor "a.md" stateDirty.cursorLine demoLive)])) :=
  ⟨by decide, c1_self_write_suppression stateDirty "a.md" demoLive "H" (by decide)
    (by decide) (by decide) (by decide)⟩

/-- Claim C6 witness: the idempotence theorem at the concrete CLEAN state with
an empty live index and an empty stored belief. -/
theorem c6_fingerprint_match_idempotent_witness :
    lookupKey stateClean.fileStates "a.md" = some ⟨CacheStatus.CLEAN, "H"⟩ ∧
    hashFileTaskState (adjustForCursor "a.md" stateClean.cursorLine []) =
      hashFileTaskState (existingIndexForPath stateClean.storeInstanceIndex "a.md") ∧
    ((handleCacheChanged stateClean "a.md" []).1.dispatched = stateClean.dispatched ∧
      lookupKey (handleCacheChanged stateClean "a.md" []).1.fileStates "a.md" =
        some ⟨CacheStatus.CLEAN, "H"⟩ ∧
      (handleCacheChanged (handleCacheChanged stateClean "a.md" []).1 "a.md"
          []).1.dispatched = stateClean.dispatched ∧
      lookupKey (handleCacheChanged (handleCacheChanged stateClean "a.md" []).1 "a.md"
          []).1.fileStates "a.md" = some ⟨CacheStatus.CLEAN, "H"⟩) :=
  ⟨by decide, by decide, c6_fingerprint_match_idempotent stateClean "a.md" [] "H"
    (by decide) (by decide) (by decide) (by decide) (by decide)⟩

/-- Claim C7 witness: a notification for `b.md` while `a.md` is active leaves
the state unchanged. -/
theorem c7_inactive_document_ignored_witness :
    stateDirty.activeFilePath ≠ some "b.md" ∧
    handleCacheChanged stateDirty "b.md" [] = (stateDirty, false) :=
  ⟨by decide, c7_inactive_document_ignored stateDirty "b.md" [] (by decide)⟩

/-- Claim C9 witness: an anonymous cursor-line entry on top of the stored
belief dispatches nothing. -/
theorem c9_anonymous_cursor_entry_suppressed_witness :
    anonInst.uid = 0 ∧
    ((handleCacheChanged stateStore "a.md"
        ((instanceIndexKey "a.md" stateStore.cursorLine, anonInst) ::
          existingIndexForPath stateStore.storeInstanceIndex "a.md")).1.dispatched =
      stateStore.dispatched ∧
    (handleCacheChanged stateStore "a.md"
        ((instanceIndexKey "a.md" stateStore.cursorLine, anonInst) ::
          existingIndexForPath stateStore.storeInstanceIndex "a.md")).2 = false) :=
  ⟨by decide, c9_anonymous_cursor_entry_suppressed stateStore "a.md" anonInst _ "H"
    (by decide) (by decide) (by decide) (by decide) (by decide) rfl (by decide)⟩

/-- Claim C10 witness: deleting the tracked path `a.md` publishes DELETE_FILE. -/
theorem c10_delete_rename_tracked_guard_witness :
    (getFileStateHash stateDirty.fileStates "a.md").isSome = true ∧
    handleFileDeleted stateDirty (TAbstractFile.file "a.md") =
      { stateDirty with
          dispatched := stateDirty.dispatched ++
            [IndexUpdateAction.DELETE_FILE "a.md"] } :=
  ⟨by decide, (c10_delete_rename_tracked_guard stateDirty "a.md" "x.md"
      (TAbstractFile.file "y.md")).1 (by decide)⟩
